import Mathlib

/-
Verification development for the vixeditor render core.

Shallow embedding of:
  - src/core/utils.py        (descriptor classification, position resolver,
                              colour-effect pipeline)
  - src/core/renderer.py     (active render worker: candidate filter, retiming
                              loop, progress updates, failure handling)
  - src/core/renderer3.py    (older render worker variant: candidate filter)
  - src/main.py              (orchestrator: startup sweep, queue poll)
  - src/database/models.py   (Job table schema)

Machine floats of the source are modelled as exact rationals; Python ints as
Lean integers; Python floor division (the // operator) as Int.fdiv, which
rounds toward negative infinity exactly as Python does.  External library
calls (cv2 colour conversion) are parameters of the embedding, never stubs of
repository code.
-/

/-! ## Python-style dynamic values

A positioning descriptor arrives from JSON as a heterogeneous Python list.
src/core/utils.py line 199 classifies it:
  is_pixel_pos = isinstance(positionxy, list) and len(positionxy) == 3
                 and all(isinstance(i, int) for i in positionxy)
-/

inductive PyVal : Type where
  | int : ℤ → PyVal
  | float : ℚ → PyVal
  | str : String → PyVal
  | list : List PyVal → PyVal

/-- Python isinstance(v, int): true exactly for int values. -/
def PyVal.isInstInt : PyVal → Bool
  | .int _ => true
  | _ => false

/-- A value is numeric when it is an int or a float (the wording of the spec). -/
def PyVal.isNumeric : PyVal → Bool
  | .int _ => true
  | .float _ => true
  | _ => false

/-- Classification performed at src/core/utils.py line 199 inside
prebake_text_overlay. -/
def is_pixel_pos : PyVal → Bool
  | .list xs => xs.length == 3 && xs.all PyVal.isInstInt
  | _ => false

/-! ## Position resolver (src/core/utils.py lines 308-382)

get_overlay_position receives the descriptor together with the is_pixel_pos
flag computed above; the tagged union below carries the flag as the
constructor tag (pixel mode holds the three ints [y_center, x_anchor,
box_width], keyword mode the two alignment strings). -/

structure Margin where
  top : ℤ
  right : ℤ
  bottom : ℤ
  left : ℤ

inductive PositionXY : Type where
  | pixel : ℤ → ℤ → ℤ → PositionXY
  | keyword : String → String → PositionXY

/-- Embedding of get_overlay_position.  frame_shape and overlay_shape are
(height, width); the returned pair is (y, x).  Python's // is Int.fdiv. -/
def get_overlay_position (frame_shape overlay_shape : ℤ × ℤ)
    (positionxy : PositionXY) (margin : Margin) (font_align : String) : ℤ × ℤ :=
  let frame_h := frame_shape.1
  let frame_w := frame_shape.2
  let overlay_h := overlay_shape.1
  let overlay_w := overlay_shape.2
  match positionxy with
  | .pixel y_center x_anchor box_width =>
      let y := y_center - overlay_h.fdiv 2
      let x :=
        if font_align = "left" then x_anchor
        else if font_align = "right" then x_anchor + box_width - overlay_w
        else x_anchor + (box_width - overlay_w).fdiv 2
      (y, x)
  | .keyword y_align x_align =>
      let content_x := margin.left
      let content_y := margin.top
      let content_w := frame_w - margin.left - margin.right
      let content_h := frame_h - margin.top - margin.bottom
      let y :=
        if y_align = "top" then content_y
        else if y_align = "bottom" then content_y + content_h - overlay_h
        else content_y + (content_h - overlay_h).fdiv 2
      let x :=
        if x_align = "left" then content_x
        else if x_align = "right" then content_x + content_w - overlay_w
        else content_x + (content_w - overlay_w).fdiv 2
      (y, x)

/-! ## Colour-effect pipeline (src/core/utils.py lines 76-93, identical
semantics in src/core/utils3.py lines 87-115) -/

/-- The four colour parameters read from the video settings dict, each with
default 1.0 (utils.py lines 77-80). -/
structure VideoSettings where
  exposure : ℚ
  brightness : ℚ
  contrast : ℚ
  saturation : ℚ

/-- One pixel as an (h, s, v) channel triple of bytes. -/
abbrev Pixel := ℕ × ℕ × ℕ

/-- np.clip(x, 0, 255) followed by astype(np.uint8); on the clipped range the
cast truncates, which is the floor on non-negative values. -/
def clipToByte (q : ℚ) : ℕ := (⌊min (max q 0) 255⌋).toNat

/-- Channel arithmetic of utils.py lines 85-92: v and s promoted to float,
each adjustment guarded by its own parameter-not-1.0 test, then clipped back
to bytes.  127.5 is written 255/2. -/
def adjustHsvPixel (vs : VideoSettings) (p : Pixel) : Pixel :=
  let h := p.1
  let s := p.2.1
  let v := p.2.2
  let v1 : ℚ := if vs.exposure ≠ 1 then (v : ℚ) * vs.exposure else (v : ℚ)
  let v2 : ℚ := if vs.brightness ≠ 1 then v1 + (vs.brightness - 1) * (255 / 2) else v1
  let v3 : ℚ := if vs.contrast ≠ 1 then (v2 - 255 / 2) * vs.contrast + 255 / 2 else v2
  let s1 : ℚ := if vs.saturation ≠ 1 then (s : ℚ) * vs.saturation else (s : ℚ)
  (h, clipToByte s1, clipToByte v3)

/-- Embedding of apply_video_effects.  The cv2 colour-space conversions are
external library calls, so they are parameters: cvtBGR2HSV models
cv2.cvtColor(frame, cv2.COLOR_BGR2HSV), cvtHSV2BGR the way back.  The early
return at utils.py lines 81-82 (utils3.py lines 96-97) bypasses both. -/
def apply_video_effects (cvtBGR2HSV cvtHSV2BGR : List Pixel → List Pixel)
    (frame : List Pixel) (vs : VideoSettings) : List Pixel :=
  if vs.exposure = 1 ∧ vs.brightness = 1 ∧ vs.contrast = 1 ∧ vs.saturation = 1 then
    frame
  else
    cvtHSV2BGR ((cvtBGR2HSV frame).map (adjustHsvPixel vs))

/-! ## Candidate source filters -/

/-- The probe result fields the filters read (duration and fps, defaults 0). -/
structure VideoInfo where
  duration : ℚ
  fps : ℚ

/-- Minimum acceptable output frame rate, defined in both renderer variants. -/
def MIN_FINAL_FPS : ℚ := 24

/-- Candidate filter of the active renderer, src/core/renderer.py line 53:
keep a clip iff its probed duration strictly exceeds the required source
duration.  No frame-rate condition appears in this variant (its
MIN_FINAL_FPS constant at line 22 is never used). -/
def rendererKeeps (required_source_duration : ℚ) (info : VideoInfo) : Bool :=
  decide (info.duration > required_source_duration)

/-- Candidate filter of the older variant, src/core/renderer3.py lines 48-57:
reject when the duration is not strictly larger than required, then reject
when speed < 1 and fps * speed falls below MIN_FINAL_FPS. -/
def renderer3Keeps (speed required_source_duration : ℚ) (info : VideoInfo) : Bool :=
  if info.duration ≤ required_source_duration then false
  else if speed < 1 ∧ info.fps * speed < MIN_FINAL_FPS then false
  else true

/-- valid_videos of renderer.py line 53 as a list filter. -/
def validVideos (required_source_duration : ℚ) (candidates : List VideoInfo) :
    List VideoInfo :=
  candidates.filter (rendererKeeps required_source_duration)

/-- valid_videos of renderer3.py lines 47-57 as a list filter. -/
def validVideos3 (speed required_source_duration : ℚ) (candidates : List VideoInfo) :
    List VideoInfo :=
  candidates.filter (renderer3Keeps speed required_source_duration)

/-! ## Retiming loop (src/core/renderer.py lines 152-204) -/

/-- renderer.py line 47: if speed <= 0: speed = 1.0. -/
def effectiveSpeed (speed : ℚ) : ℚ := if speed ≤ 0 then 1 else speed

/-- renderer.py line 153: total_output_frames = int(final_duration_s *
final_fps); int() truncates, and the product is non-negative in every render,
so this is the floor. -/
def total_output_frames (final_duration_s final_fps : ℚ) : ℕ :=
  (⌊final_duration_s * final_fps⌋).toNat

/-- Frames written after the loop of renderer.py lines 159-198 has processed
the first n source frames (all reads succeeding).  Per iteration (source
index i = n below ranges over 0-based indices, the body sees i = n):
  target = math.floor((i + 1) / speed)          (line 174)
  num_frames_to_write = target - written        (line 175; skip when <= 0)
  each write is guarded by written < cap        (lines 195-198)
-/
def framesWrittenLoop (speed : ℚ) (cap : ℕ) : ℕ → ℕ
  | 0 => 0
  | n + 1 =>
      let w := framesWrittenLoop speed cap n
      let target := (⌊((n : ℚ) + 1) / speed⌋).toNat
      if target ≤ w then w
      else w + min (target - w) (cap - w)

/-- Total frames the render worker writes for a job with the given duration,
frame rate of the trimmed clip, requested speed, and number of source frames
the trimmed clip delivers. -/
def renderFramesWritten (final_duration_s final_fps speed : ℚ)
    (num_source_frames : ℕ) : ℕ :=
  framesWrittenLoop (effectiveSpeed speed)
    (total_output_frames final_duration_s final_fps) num_source_frames

/-- renderer.py line 201: int((frames_written / total) * 95); with exact
arithmetic the truncation of the non-negative quotient is natural division. -/
def progressValue (frames_written cap : ℕ) : ℕ := frames_written * 95 / cap

/-- The progress values persisted during one render attempt of renderer.py:
0 on entering the rendering state (line 40), one value per block of
DB_UPDATE_INTERVAL_FRAMES = 30 source frames (lines 200-202), then 100 on
completion (line 218). -/
def progressUpdates (speed : ℚ) (cap num_source_frames : ℕ) : List ℕ :=
  0 :: (((List.range num_source_frames).filterMap (fun i =>
    if (i + 1) % 30 = 0 then
      some (progressValue (framesWrittenLoop speed cap (i + 1)) cap)
    else none)) ++ [100])

/-! ## Orchestrator (src/main.py) and Job schema (src/database/models.py) -/

/-- The columns the jobs row the orchestrator reads: id, status and the
creation timestamp that orders the queue. -/
structure JobRow where
  job_id : String
  status : String
  created_at : ℕ

/-- The SQL query of main.py line 46: among in_queue jobs, the first in
created_at order, ties resolved by table order (stable minimum). -/
def stableMinByCreated : List JobRow → Option JobRow
  | [] => none
  | j :: rest =>
      match stableMinByCreated rest with
      | none => some j
      | some b => if j.created_at ≤ b.created_at then some j else some b

/-- db.query(Job).filter(Job.status == "in_queue").order_by(Job.created_at).first() -/
def selectNextJob (jobs : List JobRow) : Option JobRow :=
  stableMinByCreated (jobs.filter (fun j => j.status == "in_queue"))

/-- src/main.py lines 38-54, check_and_start_jobs: skip when the active set
is non-empty; otherwise admit the selected job (add its id to the active set
and spawn a worker).  Returns the new active set and the started job id. -/
def check_and_start_jobs (active : List String) (jobs : List JobRow) :
    List String × Option String :=
  if active.length > 0 then (active, none)
  else
    match selectNextJob jobs with
    | some j => (active ++ [j.job_id], some j.job_id)
    | none => (active, none)

/-- src/main.py lines 82-93: every rendering job is marked failed. -/
def startupSweep (jobs : List JobRow) : List JobRow :=
  jobs.map (fun j =>
    if j.status == "rendering" then ⟨j.job_id, "failed", j.created_at⟩ else j)

/-- src/main.py lifespan, lines 82-96: the sweep runs first, only then does
the queue worker begin polling; the pair holds the swept table and the result
of the first poll (which starts from an empty active set). -/
def lifespanStartup (jobs : List JobRow) : List JobRow × (List String × Option String) :=
  let swept := startupSweep jobs
  (swept, check_and_start_jobs [] swept)

/-- Columns of the jobs table, src/database/models.py lines 14-24.  There is
no error_message column. -/
def jobColumns : List String :=
  ["job_id", "status", "progress", "queue_position", "request_data",
   "output_filename", "created_at", "updated_at", "start_time"]

/-- How one run of start_video_render ends: normally with an output filename,
or with the message of the exception that reached the top-level handler. -/
inductive RenderOutcome : Type where
  | success : String → RenderOutcome
  | failure : String → RenderOutcome

/-- Observable effects of one worker run: the (field, value) assignments made
to the job object, in order, and whether the completion callback ran. -/
structure WorkerRun where
  fieldWrites : List (String × String)
  callbackInvoked : Bool

/-- Field assignments of src/core/renderer.py per outcome.  Entry: status =
rendering, progress = 0 (line 40).  Success: status = complete, progress =
100, output_filename (line 218).  Failure (lines 222-229): when the job row
was found, status = failed and error_message = the diagnostic.  The finally
block (lines 230-240) always invokes the callback. -/
def start_video_render_writes (jobFound : Bool) : RenderOutcome → WorkerRun
  | .success output_filename =>
      if jobFound then
        ⟨[("status", "rendering"), ("progress", "0"),
          ("status", "complete"), ("progress", "100"),
          ("output_filename", output_filename)], true⟩
      else ⟨[], true⟩
  | .failure msg =>
      if jobFound then
        ⟨[("status", "rendering"), ("progress", "0"),
          ("status", "failed"), ("error_message", msg)], true⟩
      else ⟨[], true⟩

/-- SQLAlchemy persists an assignment only when the attribute is a declared
column of the table; assignments to undeclared attributes are plain Python
attributes and never reach the database. -/
def persistedWrites (run : WorkerRun) : List (String × String) :=
  run.fieldWrites.filter (fun wv => jobColumns.contains wv.1)

/-- The rightmost persisted status write, i.e. the status the row ends in. -/
def finalStatus (run : WorkerRun) : Option String :=
  ((persistedWrites run).filterMap (fun wv =>
    if wv.1 == "status" then some wv.2 else none)).getLast?

/-- Demonstration job table used by closed witnesses. -/
def demoJobs : List JobRow :=
  [⟨"a", "complete", 0⟩, ⟨"b", "in_queue", 5⟩, ⟨"c", "in_queue", 3⟩,
   ⟨"r1", "rendering", 2⟩]

/-! ## Theorems -/

/-- Helper: isInstInt holds exactly on int values. -/
theorem isInstInt_iff (v : PyVal) : v.isInstInt = true ↔ ∃ n : ℤ, v = .int n := by
  cases v <;> simp [PyVal.isInstInt]

/-- Claim C10: apply_video_effects is the identity when the four parameters
all equal 1.0 — for every frame and every pair of colour-conversion
functions, the input frame is returned unchanged, so no HSV round-trip is
applied. -/
theorem apply_video_effects_default_id
    (cvtBGR2HSV cvtHSV2BGR : List Pixel → List Pixel)
    (frame : List Pixel) (vs : VideoSettings)
    (he : vs.exposure = 1) (hb : vs.brightness = 1)
    (hc : vs.contrast = 1) (hs : vs.saturation = 1) :
    apply_video_effects cvtBGR2HSV cvtHSV2BGR frame vs = frame := by
  simp [apply_video_effects, he, hb, hc, hs]

/-- Witness for C10: with degenerate conversion functions (one erases the
frame, the other reverses it) and all-default settings the frame survives
untouched. -/
theorem apply_video_effects_default_id_witness :
    apply_video_effects (fun _ => []) (fun l => l.reverse)
      [(1, 2, 3), (4, 5, 6)] ⟨1, 1, 1, 1⟩ = [(1, 2, 3), (4, 5, 6)] :=
  apply_video_effects_default_id _ _ _ _ rfl rfl rfl rfl

/-- Claim C4: in pixel mode the resolved vertical position is
y_center - overlay_h // 2 for every alignment, and the horizontal position is
x_anchor for left, x_anchor + box_width - overlay_w for right, and
x_anchor + (box_width - overlay_w) // 2 for center, with Python floor
division throughout. -/
theorem pixel_mode_position_eq (fs os : ℤ × ℤ)
    (y_center x_anchor box_width : ℤ) (m : Margin) :
    (∀ font_align : String,
      (get_overlay_position fs os (.pixel y_center x_anchor box_width) m
        font_align).1 = y_center - os.1.fdiv 2)
    ∧ get_overlay_position fs os (.pixel y_center x_anchor box_width) m "left"
        = (y_center - os.1.fdiv 2, x_anchor)
    ∧ get_overlay_position fs os (.pixel y_center x_anchor box_width) m "right"
        = (y_center - os.1.fdiv 2, x_anchor + box_width - os.2)
    ∧ get_overlay_position fs os (.pixel y_center x_anchor box_width) m "center"
        = (y_center - os.1.fdiv 2, x_anchor + (box_width - os.2).fdiv 2) := by
  refine ⟨fun a => rfl, ?_, ?_, ?_⟩ <;> simp [get_overlay_position]

/-- Claim C8 counterexample: the descriptor [100.0, 50, 300] is a three-entry
list whose entries are all numeric, yet it is classified as keyword mode
(is_pixel_pos is false), because the code tests isinstance(i, int) and a
float is not an int. -/
theorem pixel_mode_numeric_counterexample :
    is_pixel_pos (.list [.float 100, .int 50, .int 300]) = false
    ∧ ([PyVal.float 100, PyVal.int 50, PyVal.int 300].length = 3)
    ∧ ([PyVal.float 100, PyVal.int 50, PyVal.int 300].all PyVal.isNumeric = true) :=
  ⟨rfl, rfl, rfl⟩

/-- Claim C8 amended: a descriptor is classified pixel mode iff it is a list
of exactly three Python ints; every other shape (including a three-entry list
containing a float) is keyword mode. -/
theorem pixel_mode_iff_int_entries (v : PyVal) :
    is_pixel_pos v = true ↔ ∃ a b c : ℤ, v = .list [.int a, .int b, .int c] := by
  cases v with
  | list xs =>
      simp only [is_pixel_pos, Bool.and_eq_true, beq_iff_eq, List.all_eq_true]
      constructor
      · rintro ⟨hlen, hall⟩
        obtain ⟨x, y, z, rfl⟩ := List.length_eq_three.mp hlen
        obtain ⟨a, rfl⟩ := (isInstInt_iff x).mp (hall x (by simp))
        obtain ⟨b, rfl⟩ := (isInstInt_iff y).mp (hall y (by simp))
        obtain ⟨c, rfl⟩ := (isInstInt_iff z).mp (hall z (by simp))
        exact ⟨a, b, c, rfl⟩
      · rintro ⟨a, b, c, h⟩
        cases h
        constructor
        · rfl
        · intro x hx
          simp only [List.mem_cons, List.not_mem_nil, or_false] at hx
          rcases hx with rfl | rfl | rfl <;> rfl
  | int n => simp [is_pixel_pos]
  | float q => simp [is_pixel_pos]
  | str s => simp [is_pixel_pos]

/-- Witness for C8: a concrete all-int three-entry list is pixel mode. -/
theorem pixel_mode_iff_int_entries_witness :
    is_pixel_pos (.list [.int 960, .int 40, .int 1000]) = true :=
  (pixel_mode_iff_int_entries (.list [.int 960, .int 40, .int 1000])).mpr
    ⟨960, 40, 1000, rfl⟩

/-- Claim C3 (code bug): on the failure path, renderer.py sets status failed,
assigns the diagnostic to job.error_message and always runs the completion
callback — but error_message is not a column of the jobs table
(src/database/models.py lines 14-24), so the diagnostic is never persisted:
the stored record ends failed with no error_message field at all. -/
theorem error_message_not_persisted :
    (finalStatus (start_video_render_writes true
        (.failure "No suitable source videos found.")) = some "failed")
    ∧ ((start_video_render_writes true
        (.failure "No suitable source videos found.")).callbackInvoked = true)
    ∧ (("error_message", "No suitable source videos found.") ∈
        (start_video_render_writes true
          (.failure "No suitable source videos found.")).fieldWrites)
    ∧ ("error_message" ∉ jobColumns)
    ∧ ∀ v, ("error_message", v) ∉ persistedWrites (start_video_render_writes true
        (.failure "No suitable source videos found.")) := by
  refine ⟨rfl, rfl, by simp [start_video_render_writes], by decide, ?_⟩
  intro v
  simp [persistedWrites, start_video_render_writes, jobColumns]

/-- Claim C2 counterexample: with speed 1/2 and output duration 10 s a 30 fps
source of 20 s duration yields an output frame rate 30 × 1/2 = 15 < 24, yet
the active renderer (src/core/renderer.py line 53) keeps it as a candidate:
its filter tests only the duration. -/
theorem fps_floor_not_enforced_counterexample :
    validVideos (10 * (1 / 2)) [⟨20, 30⟩] = [⟨20, 30⟩]
    ∧ ((1 : ℚ) / 2 < 1)
    ∧ ((30 : ℚ) * (1 / 2) < MIN_FINAL_FPS) := by
  refine ⟨?_, by norm_num, by norm_num [MIN_FINAL_FPS]⟩
  have h : rendererKeeps (10 * (1 / 2)) ⟨20, 30⟩ = true := by
    simp only [rendererKeeps, decide_eq_true_eq]
    norm_num
  simp only [validVideos, List.filter_cons, h, List.filter_nil, if_true]

/-- Claim C2 amended: the conjunction of the duration condition and the
24 fps floor characterises the candidate filter of renderer3.py only; the
active renderer.py keeps a clip iff its probed duration strictly exceeds the
required source duration, with no frame-rate condition. -/
theorem candidate_filter_characterization (speed required : ℚ) (info : VideoInfo) :
    (rendererKeeps required info = true ↔ info.duration > required)
    ∧ (renderer3Keeps speed required info = true ↔
        (info.duration > required
          ∧ (speed < 1 → info.fps * speed ≥ MIN_FINAL_FPS))) := by
  constructor
  · simp [rendererKeeps]
  · simp only [renderer3Keeps]
    split_ifs with h1 h2
    · simp only [Bool.false_eq_true, false_iff, not_and]
      intro h
      exact absurd h (not_lt.mpr h1)
    · simp only [Bool.false_eq_true, false_iff, not_and]
      intro _ hcon
      exact absurd (hcon h2.1) (not_le.mpr h2.2)
    · simp only [true_iff]
      push_neg at h2
      exact ⟨not_le.mp h1, fun hs => h2 hs⟩

/-- Witness for C2: a 48 fps, 20 s clip at speed 1/2 (required 5 s) passes
the renderer3 filter, since 48 × 1/2 = 24 meets the floor. -/
theorem candidate_filter_characterization_witness :
    renderer3Keeps (1 / 2) (10 * (1 / 2)) ⟨20, 48⟩ = true :=
  ((candidate_filter_characterization (1 / 2) (10 * (1 / 2)) ⟨20, 48⟩).2).mpr
    (by constructor
        · norm_num
        · intro _
          norm_num [MIN_FINAL_FPS])

/-- Helper: the effective speed is always positive (renderer.py line 47
replaces non-positive speeds by 1.0). -/
theorem effectiveSpeed_pos (speed : ℚ) : 0 < effectiveSpeed speed := by
  rw [effectiveSpeed]
  split_ifs with h
  · norm_num
  · exact not_le.mp h

/-- Helper: closed form of the retiming loop — after n source frames the
running total is the floor of n / speed, capped at total_output_frames. -/
theorem framesWrittenLoop_closed (s : ℚ) (hs : 0 < s) (cap : ℕ) :
    ∀ n, framesWrittenLoop s cap n = min ((⌊(n : ℚ) / s⌋).toNat) cap := by
  intro n
  induction n with
  | zero => simp [framesWrittenLoop]
  | succ n ih =>
      have hcast : (((n + 1 : ℕ)) : ℚ) = (n : ℚ) + 1 := by push_cast; ring
      have hmono : (⌊(n : ℚ) / s⌋).toNat ≤ (⌊((n : ℚ) + 1) / s⌋).toNat := by
        apply Int.toNat_le_toNat
        apply Int.floor_le_floor
        gcongr
        norm_num
      simp only [framesWrittenLoop, ih, hcast]
      split_ifs with h
      · omega
      · omega

/-- Helper: the running total of written frames is monotone in the number of
processed source frames. -/
theorem framesWrittenLoop_mono (s : ℚ) (hs : 0 < s) (cap : ℕ) {a b : ℕ}
    (h : a ≤ b) : framesWrittenLoop s cap a ≤ framesWrittenLoop s cap b := by
  rw [framesWrittenLoop_closed s hs cap a, framesWrittenLoop_closed s hs cap b]
  refine min_le_min ?_ le_rfl
  apply Int.toNat_le_toNat
  apply Int.floor_le_floor
  have hab : (a : ℚ) ≤ (b : ℚ) := by exact_mod_cast h
  gcongr

/-- Helper: the running total never exceeds the cap. -/
theorem framesWrittenLoop_le_cap (s : ℚ) (hs : 0 < s) (cap n : ℕ) :
    framesWrittenLoop s cap n ≤ cap := by
  rw [framesWrittenLoop_closed s hs cap n]
  exact min_le_right _ _

/-- Claim C1 amended: for every duration, frame rate, speed and delivered
source-frame count, the total written equals
min(floor(numSourceFrames / speed), int(outputDuration × outputFrameRate));
in particular, when the trimmed source delivers enough frames the total is
int(outputDuration × outputFrameRate) — the floor (Python int truncation),
not round. -/
theorem retiming_total_frames_floor (final_duration_s final_fps speed : ℚ)
    (num_source_frames : ℕ) :
    renderFramesWritten final_duration_s final_fps speed num_source_frames
      = min ((⌊(num_source_frames : ℚ) / effectiveSpeed speed⌋).toNat)
          (total_output_frames final_duration_s final_fps)
    ∧ (total_output_frames final_duration_s final_fps
          ≤ (⌊(num_source_frames : ℚ) / effectiveSpeed speed⌋).toNat →
        renderFramesWritten final_duration_s final_fps speed num_source_frames
          = total_output_frames final_duration_s final_fps) := by
  have h := framesWrittenLoop_closed (effectiveSpeed speed)
    (effectiveSpeed_pos speed) (total_output_frames final_duration_s final_fps)
    num_source_frames
  rw [renderFramesWritten, h]
  exact ⟨rfl, fun hle => min_eq_right hle⟩

/-- Witness for C1: duration 2 s at 3 fps and speed 2 needs 12 source frames;
with exactly 12 delivered the worker writes all 6 = int(2 × 3) frames. -/
theorem retiming_total_frames_floor_witness :
    renderFramesWritten 2 3 2 12 = total_output_frames 2 3 :=
  (retiming_total_frames_floor 2 3 2 12).2 (by
    have h1 : total_output_frames 2 3 = 6 := by
      rw [total_output_frames]
      norm_num
      rfl
    have h2 : effectiveSpeed (2 : ℚ) = 2 := by
      norm_num [effectiveSpeed]
    rw [h1, h2]
    norm_num)

/-- Claim C1 counterexample: duration 1 s, trimmed-clip frame rate 9/5 fps,
speed 1, and the trimmed source delivering its 2 frames.  The claim demands
round(1 × 9/5) = 2 output frames, but the worker caps the total at
int(1 × 9/5) = 1 and writes exactly 1 frame. -/
theorem retiming_round_counterexample :
    renderFramesWritten 1 (9 / 5) 1 2 = 1 ∧ round ((1 : ℚ) * (9 / 5)) = 2 := by
  constructor
  · have h := framesWrittenLoop_closed (effectiveSpeed 1) (effectiveSpeed_pos 1)
      (total_output_frames 1 (9 / 5)) 2
    rw [renderFramesWritten, h]
    have h1 : total_output_frames 1 (9 / 5) = 1 := by
      norm_num [total_output_frames]
    have h2 : effectiveSpeed (1 : ℚ) = 1 := by
      norm_num [effectiveSpeed]
    rw [h1, h2]
    norm_num
  · rw [round_eq]
    norm_num

/-- Helper: the per-frame persistence filter collapses to one progress entry
per full block of 30 source frames. -/
theorem filterMapBlocks (speed : ℚ) (cap : ℕ) :
    ∀ n, (List.range n).filterMap (fun i =>
        if (i + 1) % 30 = 0 then
          some (progressValue (framesWrittenLoop speed cap (i + 1)) cap)
        else none)
      = (List.range (n / 30)).map (fun k =>
          progressValue (framesWrittenLoop speed cap (30 * (k + 1))) cap) := by
  intro n
  induction n with
  | zero => rfl
  | succ n ih =>
      rw [List.range_succ, List.filterMap_append, ih]
      by_cases h : (n + 1) % 30 = 0
      · have hd : (n + 1) / 30 = n / 30 + 1 := by omega
        have h30 : 30 * (n / 30 + 1) = n + 1 := by omega
        rw [hd, List.range_succ, List.map_append]
        simp [h, h30]
      · have hd : (n + 1) / 30 = n / 30 := by omega
        rw [hd]
        simp [h]

/-- Helper: the persisted-progress list in block form. -/
theorem progressUpdates_eq_map (speed : ℚ) (cap n : ℕ) :
    progressUpdates speed cap n
      = 0 :: (((List.range (n / 30)).map (fun k =>
          progressValue (framesWrittenLoop speed cap (30 * (k + 1))) cap)) ++ [100]) := by
  rw [progressUpdates, filterMapBlocks]

/-- Helper: a map of a step-monotone function over an index range is a
non-decreasing chain. -/
theorem chainOfMonoMap (g : ℕ → ℕ) (hmono : ∀ j, g j ≤ g (j + 1)) :
    ∀ m, List.Chain' (· ≤ ·) (List.map g (List.range m)) := by
  intro m
  rw [List.chain'_map]
  cases m with
  | zero => simp
  | succ m' =>
      rw [List.chain'_range_succ]
      intro j _
      exact hmono j

/-- Claim C9: within a single render attempt the persisted progress sequence
(0 on entering rendering, then int(framesWritten / totalFrames * 95) every 30
source frames, then 100 on completion) is monotonically non-decreasing. -/
theorem progress_monotone (speed : ℚ) (cap num_source_frames : ℕ)
    (hs : 0 < speed) (hcap : 0 < cap) :
    List.Chain' (· ≤ ·) (progressUpdates speed cap num_source_frames) := by
  rw [progressUpdates_eq_map]
  have hle : ∀ k,
      progressValue (framesWrittenLoop speed cap (30 * (k + 1))) cap ≤ 100 := by
    intro k
    have hw := framesWrittenLoop_le_cap speed hs cap (30 * (k + 1))
    calc progressValue (framesWrittenLoop speed cap (30 * (k + 1))) cap
        ≤ cap * 95 / cap := Nat.div_le_div_right (mul_le_mul_right' hw 95)
      _ = 95 := Nat.mul_div_cancel_left 95 hcap
      _ ≤ 100 := by norm_num
  rw [← List.cons_append]
  apply List.Chain'.append
  · refine List.chain'_cons'.mpr ⟨fun y _ => Nat.zero_le y, ?_⟩
    apply chainOfMonoMap
    intro j
    apply Nat.div_le_div_right
    apply mul_le_mul_right'
    exact framesWrittenLoop_mono speed hs cap (by omega)
  · simp
  · intro x hx y hy
    simp only [List.head?_cons, Option.mem_def, Option.some.injEq] at hy
    subst hy
    obtain ⟨hne, hxl⟩ := List.mem_getLast?_eq_getLast hx
    have hxm : x ∈ 0 :: List.map (fun k =>
        progressValue (framesWrittenLoop speed cap (30 * (k + 1))) cap)
        (List.range (num_source_frames / 30)) := hxl ▸ List.getLast_mem hne
    rcases List.mem_cons.mp hxm with rfl | hmem
    · exact Nat.zero_le 100
    · obtain ⟨k, _, rfl⟩ := List.mem_map.mp hmem
      exact hle k

/-- Witness for C9: a concrete short attempt (speed 1, one output frame, no
persisted intermediate blocks) has non-decreasing progress. -/
theorem progress_monotone_witness :
    List.Chain' (· ≤ ·) (progressUpdates 1 1 0) :=
  progress_monotone 1 1 0 (by norm_num) (by norm_num)

/-- Helper: floor division of a non-negative integer by 2 is non-negative. -/
theorem fdiv_two_nonneg (a : ℤ) (h : 0 ≤ a) : 0 ≤ a.fdiv 2 := by
  rw [Int.fdiv_eq_ediv _ (by norm_num)]
  positivity

/-- Helper: floor division of a non-negative integer by 2 is at most it. -/
theorem fdiv_two_le (a : ℤ) (h : 0 ≤ a) : a.fdiv 2 ≤ a := by
  rw [Int.fdiv_eq_ediv _ (by norm_num)]
  exact Int.ediv_le_self 2 h

/-- Claim C5: in keyword mode, for each of the nine alignment-keyword pairs,
the resolved position keeps the overlay fully inside the content box (frame
minus margins) whenever the overlay dimensions fit in that box. -/
theorem keyword_mode_inside_content_box
    (frame_h frame_w overlay_h overlay_w : ℤ) (m : Margin)
    (y_align x_align font_align : String)
    (hy : y_align = "top" ∨ y_align = "center" ∨ y_align = "bottom")
    (hx : x_align = "left" ∨ x_align = "center" ∨ x_align = "right")
    (h3 : overlay_h ≤ frame_h - m.top - m.bottom)
    (h4 : overlay_w ≤ frame_w - m.left - m.right) :
    m.top ≤ (get_overlay_position (frame_h, frame_w) (overlay_h, overlay_w)
        (.keyword y_align x_align) m font_align).1
    ∧ (get_overlay_position (frame_h, frame_w) (overlay_h, overlay_w)
        (.keyword y_align x_align) m font_align).1 + overlay_h ≤ frame_h - m.bottom
    ∧ m.left ≤ (get_overlay_position (frame_h, frame_w) (overlay_h, overlay_w)
        (.keyword y_align x_align) m font_align).2
    ∧ (get_overlay_position (frame_h, frame_w) (overlay_h, overlay_w)
        (.keyword y_align x_align) m font_align).2 + overlay_w ≤ frame_w - m.right := by
  have hdh1 : 0 ≤ (frame_h - m.top - m.bottom - overlay_h).fdiv 2 :=
    fdiv_two_nonneg _ (by linarith)
  have hdh2 : (frame_h - m.top - m.bottom - overlay_h).fdiv 2
      ≤ frame_h - m.top - m.bottom - overlay_h :=
    fdiv_two_le _ (by linarith)
  have hdw1 : 0 ≤ (frame_w - m.left - m.right - overlay_w).fdiv 2 :=
    fdiv_two_nonneg _ (by linarith)
  have hdw2 : (frame_w - m.left - m.right - overlay_w).fdiv 2
      ≤ frame_w - m.left - m.right - overlay_w :=
    fdiv_two_le _ (by linarith)
  rcases hy with rfl | rfl | rfl <;> rcases hx with rfl | rfl | rfl <;>
    refine ⟨?_, ?_, ?_, ?_⟩ <;>
    simp only [get_overlay_position, String.reduceEq, reduceIte] <;>
    linarith

/-- Witness for C5: a 200 x 300 overlay anchored bottom-center inside a
1920 x 1080 frame with margins (100, 50, 100, 50) stays inside the content
box. -/
theorem keyword_mode_inside_content_box_witness :
    (100 : ℤ) ≤ (get_overlay_position ((1920 : ℤ), 1080) (200, 300)
        (.keyword "bottom" "center") ⟨100, 50, 100, 50⟩ "center").1
    ∧ (get_overlay_position ((1920 : ℤ), 1080) (200, 300)
        (.keyword "bottom" "center") ⟨100, 50, 100, 50⟩ "center").1 + 200
        ≤ 1920 - 100
    ∧ (50 : ℤ) ≤ (get_overlay_position ((1920 : ℤ), 1080) (200, 300)
        (.keyword "bottom" "center") ⟨100, 50, 100, 50⟩ "center").2
    ∧ (get_overlay_position ((1920 : ℤ), 1080) (200, 300)
        (.keyword "bottom" "center") ⟨100, 50, 100, 50⟩ "center").2 + 300
        ≤ 1080 - 50 :=
  keyword_mode_inside_content_box 1920 1080 200 300 ⟨100, 50, 100, 50⟩
    "bottom" "center" "center" (Or.inr (Or.inr rfl)) (Or.inr (Or.inl rfl))
    (by norm_num) (by norm_num)

/-- Helper: a job returned by the stable minimum is a member of the list and
minimal in created_at among its members. -/
theorem stableMin_spec :
    ∀ (l : List JobRow) (j : JobRow), stableMinByCreated l = some j →
      j ∈ l ∧ ∀ x ∈ l, j.created_at ≤ x.created_at := by
  intro l
  induction l with
  | nil => intro j h; cases h
  | cons a rest ih =>
      intro j h
      rw [stableMinByCreated] at h
      cases hrest : stableMinByCreated rest with
      | none =>
          rw [hrest] at h
          obtain rfl : a = j := by simpa using h
          have hnil : rest = [] := by
            cases rest with
            | nil => rfl
            | cons b r =>
                rw [stableMinByCreated] at hrest
                cases hr2 : stableMinByCreated r with
                | none => rw [hr2] at hrest; simp at hrest
                | some c =>
                    rw [hr2] at hrest
                    by_cases hbc : b.created_at ≤ c.created_at <;>
                      simp [hbc] at hrest
          subst hnil
          exact ⟨List.mem_singleton_self a, fun x hx => by
            obtain rfl : x = a := by simpa using hx
            exact le_rfl⟩
      | some b =>
          rw [hrest] at h
          obtain ⟨hb_mem, hb_min⟩ := ih b hrest
          by_cases hc : a.created_at ≤ b.created_at
          · obtain rfl : a = j := by simpa [hc] using h
            refine ⟨List.mem_cons_self a rest, fun x hx => ?_⟩
            rcases List.mem_cons.mp hx with rfl | hx
            · exact le_rfl
            · exact le_trans hc (hb_min x hx)
          · obtain rfl : b = j := by simpa [hc] using h
            refine ⟨List.mem_cons_of_mem a hb_mem, fun x hx => ?_⟩
            rcases List.mem_cons.mp hx with rfl | hx
            · exact (not_le.mp hc).le
            · exact hb_min x hx

/-- Helper: the selected job is an in_queue member of the table with minimal
created_at among the in_queue jobs. -/
theorem selectNextJob_spec (jobs : List JobRow) (j : JobRow)
    (h : selectNextJob jobs = some j) :
    j ∈ jobs ∧ j.status = "in_queue"
      ∧ ∀ x ∈ jobs, x.status = "in_queue" → j.created_at ≤ x.created_at := by
  rw [selectNextJob] at h
  obtain ⟨hmem, hmin⟩ := stableMin_spec _ j h
  rw [List.mem_filter] at hmem
  refine ⟨hmem.1, by simpa using hmem.2, fun x hx hxs => ?_⟩
  exact hmin x (List.mem_filter.mpr ⟨hx, by simp [hxs]⟩)

/-- Helper: whenever a poll starts a job, that job is an in_queue row of the
table with minimal created_at among in_queue rows. -/
theorem check_and_start_selected (active : List String) (jobs : List JobRow)
    (id : String) (h : (check_and_start_jobs active jobs).2 = some id) :
    ∃ j, j ∈ jobs ∧ j.job_id = id ∧ j.status = "in_queue"
      ∧ ∀ x ∈ jobs, x.status = "in_queue" → j.created_at ≤ x.created_at := by
  rw [check_and_start_jobs] at h
  by_cases ha : active.length > 0
  · rw [if_pos ha] at h
    exact absurd h (by simp)
  · rw [if_neg ha] at h
    cases hsel : selectNextJob jobs with
    | none =>
        rw [hsel] at h
        exact absurd h (by simp)
    | some j =>
        rw [hsel] at h
        have hid : j.job_id = id := by simpa using h
        obtain ⟨h1, h2, h3⟩ := selectNextJob_spec jobs j hsel
        exact ⟨j, h1, hid, h2, h3⟩

/-- Claim C6: on every poll, a non-empty active set suppresses admission;
with an empty active set the single oldest in_queue job (if any) is added to
the active set and started; any started job is an in_queue row (so a
rendering job is never re-selected), and the active set never grows beyond
one entry. -/
theorem single_flight_admission (active : List String) (jobs : List JobRow) :
    (active ≠ [] → check_and_start_jobs active jobs = (active, none))
    ∧ (check_and_start_jobs [] jobs =
        match selectNextJob jobs with
        | some j => ([j.job_id], some j.job_id)
        | none => ([], none))
    ∧ (∀ id, (check_and_start_jobs active jobs).2 = some id →
        ∃ j, j ∈ jobs ∧ j.job_id = id ∧ j.status = "in_queue"
          ∧ ∀ x ∈ jobs, x.status = "in_queue" → j.created_at ≤ x.created_at)
    ∧ (check_and_start_jobs active jobs).1.length ≤ max active.length 1 := by
  refine ⟨?_, ?_, fun id h => check_and_start_selected active jobs id h, ?_⟩
  · intro hne
    rw [check_and_start_jobs, if_pos]
    simpa using List.length_pos.mpr hne
  · rw [check_and_start_jobs, if_neg (by simp)]
    cases hsel : selectNextJob jobs with
    | none => rfl
    | some j => simp
  · rw [check_and_start_jobs]
    by_cases ha : active.length > 0
    · rw [if_pos ha]
      exact le_max_left _ _
    · rw [if_neg ha]
      cases hsel : selectNextJob jobs with
      | none => exact le_max_left _ _
      | some j =>
          show (active ++ [j.job_id]).length ≤ max active.length 1
          simp only [List.length_append, List.length_cons, List.length_nil]
          omega

/-- Witness for C6: with a non-empty active set the demonstration table
admits nothing. -/
theorem single_flight_admission_witness :
    check_and_start_jobs ["x"] demoJobs = (["x"], none) :=
  (single_flight_admission ["x"] demoJobs).1 (by simp)

/-- Claim C7: at orchestrator startup every rendering job is transitioned to
failed and every other job is untouched, before the first poll admits
anything; afterwards no job remains in rendering state, and any job the
first poll admits is an in_queue row of the swept table. -/
theorem startup_recovery_sweep (jobs : List JobRow) :
    (∀ j ∈ (lifespanStartup jobs).1, j.status ≠ "rendering")
    ∧ (∀ j ∈ jobs, j.status = "rendering" →
        (⟨j.job_id, "failed", j.created_at⟩ : JobRow) ∈ (lifespanStartup jobs).1)
    ∧ (∀ j ∈ jobs, j.status ≠ "rendering" → j ∈ (lifespanStartup jobs).1)
    ∧ (∀ id, (lifespanStartup jobs).2.2 = some id →
        ∃ j, j ∈ (lifespanStartup jobs).1 ∧ j.job_id = id
          ∧ j.status = "in_queue") := by
  have hfst : (lifespanStartup jobs).1 = startupSweep jobs := rfl
  refine ⟨?_, ?_, ?_, ?_⟩
  · intro j hj
    rw [hfst, startupSweep] at hj
    obtain ⟨a, _, rfl⟩ := List.mem_map.mp hj
    by_cases h : (a.status == "rendering") = true
    · simp [h]
    · rw [if_neg h]
      simpa using h
  · intro j hj hr
    rw [hfst, startupSweep]
    exact List.mem_map.mpr ⟨j, hj, by simp [hr]⟩
  · intro j hj hr
    rw [hfst, startupSweep]
    refine List.mem_map.mpr ⟨j, hj, ?_⟩
    rw [if_neg (by simpa using hr)]
  · intro id h
    obtain ⟨j, h1, h2, h3, _⟩ :=
      check_and_start_selected [] (startupSweep jobs) id h
    exact ⟨j, h1, h2, h3⟩

/-- Witness for C7: the rendering job of the demonstration table is found
failed after the sweep. -/
theorem startup_recovery_sweep_witness :
    (⟨"r1", "failed", 2⟩ : JobRow) ∈ (lifespanStartup demoJobs).1 :=
  (startup_recovery_sweep demoJobs).2.1 ⟨"r1", "rendering", 2⟩
    (by simp [demoJobs]) rfl
